/- Verification of the vaultedb encryption-and-storage engine against its
natural-language specification.  The definitions below are a shallow embedding
of `vaultdb/storage.py` and `vaultdb/encrypted_storage.py`: Python dicts become
association lists (insertion order preserved, first binding found by lookup,
as for Python's unique-key dicts), exceptions become an explicit `Res` result
type, the file system becomes an explicit `Disk` state, and nondeterministic
inputs (`uuid.uuid4()`, `datetime.now()`) become explicit parameters. -/
import Mathlib

/-- Plaintext JSON scalar values, as stored in document fields.  `null` models
Python `None` (and JSON `null`).  Nested objects/arrays are not needed by any
claim and are omitted. -/
inductive JVal where
  | null
  | bool (b : Bool)
  | num (n : Int)
  | str (s : String)
  deriving DecidableEq, Repr

/-- A plaintext document: a Python dict from string keys to JSON values. -/
abbrev Doc := List (String × JVal)

/-- Python truthiness of a JSON scalar (`None`, `False`, `0`, `""` are falsy). -/
def JVal.truthy : JVal → Bool
  | .null => false
  | .bool b => b
  | .num n => n != 0
  | .str s => s != ""

/-- Values occurring in raw stored records.  `js` is a plain JSON scalar (for
example the plaintext `_id` field); `ct doc key` is a ciphertext token (in the
source, a Fernet string) that authenticates and encodes the plaintext `doc`
under the symmetric key `key`; `junk` is a string that is not a valid
ciphertext under any key. -/
inductive RVal where
  | js (v : JVal)
  | ct (doc : Doc) (key : Nat)
  | junk (tag : Nat)
  deriving DecidableEq, Repr

/-- Python truthiness of a raw record value.  Ciphertext and junk tokens are
nonempty strings in the source, hence truthy. -/
def RVal.truthy : RVal → Bool
  | .js v => v.truthy
  | .ct _ _ => true
  | .junk _ => true

/-- A raw stored record: a Python dict from string keys to raw values
(normally `{_id, data}` but arbitrary dicts can be loaded from disk). -/
abbrev RawRecord := List (String × RVal)

/-- Dict lookup: the value bound to `k`, or `none` (Python `dict.get`). -/
def aGet {κ α : Type} [DecidableEq κ] (l : List (κ × α)) (k : κ) : Option α :=
  match l with
  | [] => none
  | (k', v) :: rest => if k' = k then some v else aGet rest k

/-- Dict assignment `l[k] = v`: replaces the first binding of `k` in place,
or appends a new binding (Python dicts preserve insertion order). -/
def aSet {κ α : Type} [DecidableEq κ] (l : List (κ × α)) (k : κ) (v : α) :
    List (κ × α) :=
  match l with
  | [] => [(k, v)]
  | (k', v') :: rest => if k' = k then (k, v) :: rest else (k', v') :: aSet rest k v

/-- Dict deletion `del l[k]`: removes the first binding of `k`. -/
def aDel {κ α : Type} [DecidableEq κ] (l : List (κ × α)) (k : κ) : List (κ × α) :=
  match l with
  | [] => []
  | (k', v') :: rest => if k' = k then rest else (k', v') :: aDel rest k

/-- Dict merge `l.update(u)`: sets each binding of `u` in order (a shallow
overwrite, mirroring the iteration in CPython's `dict.update`). -/
def aMerge {κ α : Type} [DecidableEq κ] (l u : List (κ × α)) : List (κ × α) :=
  u.foldl (fun acc kv => aSet acc kv.1 kv.2) l

/-- The last binding of `k` in `u` (the one that wins when `u` is merged). -/
def aGetLast {κ α : Type} [DecidableEq κ] (l : List (κ × α)) (k : κ) : Option α :=
  match l with
  | [] => none
  | (k', v) :: rest =>
    match aGetLast rest k with
    | some w => some w
    | none => if k' = k then some v else none

/-- First-of-two options (`o.orElse`), used to state merge-lookup lemmas. -/
def oor {α : Type} : Option α → Option α → Option α
  | some v, _ => some v
  | none, o => o

/-- The exceptions raised by the engine, one constructor per class used in the
source: `InvalidDocumentError`, `DuplicateIDError`, `StorageError`,
`CryptoError`, the `RuntimeError` raised by `ProtectedMetaDict` (the spec's
"protection error"), `ValueError`, and Python's `KeyError`. -/
inductive VErr where
  | invalidDocument
  | duplicateID
  | storageError
  | cryptoError
  | protectionError
  | valueError
  | keyError
  deriving DecidableEq, Repr

/-- Result of a call that can raise: Python's normal return vs. exception. -/
inductive Res (ρ : Type) where
  | ok (val : ρ)
  | err (e : VErr)
  deriving DecidableEq, Repr

/-- Modelled from the spec: `encrypt_document(doc, key)` from
`vaultdb/crypto.py`, which is not present under `src/`.  Per spec section 4.2 it
is authenticated encryption: the ciphertext token encodes the full serialized
document and is bound to the key. -/
def encrypt_document (doc : Doc) (key : Nat) : RVal :=
  .ct doc key

/-- Modelled from the spec: `decrypt_document(token, key)` from
`vaultdb/crypto.py`, which is not present under `src/`.  Per spec section 4.2 it
fails closed: `none` models the raised `CryptoError` for a wrong key, a
tampered/junk token, or a non-ciphertext value. -/
def decrypt_document (v : RVal) (key : Nat) : Option Doc :=
  match v with
  | .ct d k => if k = key then some d else none
  | _ => none

/-- Vault metadata: the contents of a `ProtectedMetaDict` (string keys, JSON
scalar values such as the version, timestamp and base64 salt strings). -/
abbrev Meta := List (String × JVal)

/-- `ProtectedMetaDict._protected_keys` [storage.py:12]. -/
def protectedGuard (k : String) : Bool :=
  k == "created_at" || k == "vault_version"

/-- `ProtectedMetaDict.__setitem__` [storage.py:13-16]: raises `RuntimeError`
on a protected key before mutating, otherwise assigns.  The pair returns the
dict after the call together with the raised exception, if any. -/
def metaSet (m : Meta) (k : String) (v : JVal) : Meta × Option VErr :=
  if protectedGuard k then (m, some .protectionError)
  else (aSet m k v, none)

/-- `ProtectedMetaDict.update` [storage.py:18-22]: checks every key of the
update against the protected set before calling `dict.update`, so a protected
key anywhere in the update raises with no key applied. -/
def metaUpdate (m : Meta) (u : Meta) : Meta × Option VErr :=
  if u.any (fun kv => protectedGuard kv.1) then (m, some .protectionError)
  else (aMerge m u, none)

/-- `del meta[k]` on a `ProtectedMetaDict`: the class overrides only
`__setitem__` and `update` [storage.py:11-22], so deletion falls through to
`dict.__delitem__`, which is unguarded (raising `KeyError` only on absence). -/
def metaDel (m : Meta) (k : String) : Meta × Option VErr :=
  match aGet m k with
  | some _ => (aDel m k, none)
  | none => (m, some .keyError)

/-- `VAULTDB_VERSION` from `vaultdb/config.py` (not present under `src/`);
the tests pin it to "1.0.0". -/
def VAULTDB_VERSION : String := "1.0.0"

/-- `DocumentStorage._initialize_meta` [storage.py:83-88]: fresh metadata from
the engine version, the current timestamp `now` (passed explicitly here), and
the app name when truthy. -/
def initializeMeta (appName : Option String) (now : String) : Meta :=
  let m : Meta := [("vault_version", .str VAULTDB_VERSION), ("created_at", .str now)]
  match appName with
  | some a => if a != "" then m ++ [("app_name", .str a)] else m
  | none => m

/-- The parseable content of the vault file: the `{_meta, documents}` JSON
object [storage.py:92-95].  Document-map keys are the `_id` values. -/
structure VaultFile where
  vmeta : Meta
  documents : List (RVal × RawRecord)
  deriving DecidableEq, Repr

/-- The file-system state seen by one store: the target path's parseable
content (`none` = the file is absent or empty, treated alike by `_load`), and
the temporary file's parseable content. -/
structure Disk where
  target : Option VaultFile
  temp : Option VaultFile
  deriving DecidableEq, Repr

/-- In-memory `DocumentStorage` state [storage.py:51-55]: the protected
metadata dict and the documents map.  Note the class has no `salt` attribute
and `__init__` has no `salt` parameter. -/
structure DocStore where
  meta : Meta
  data : List (RVal × RawRecord)
  deriving DecidableEq, Repr

/-- `DocumentStorage._atomic_write` [storage.py:90-101]: dumps the full
`{_meta, documents}` structure into a fresh temporary file in the target's
directory, then `os.replace`s it over the target.  `dumpOk`/`renameOk` inject
deterministic failure into the serialization and rename steps (as the test
suite does by patching `os.replace`); a failed dump leaves no parseable temp
content.  Any failure is wrapped into `StorageError`. -/
def DocStore.atomicWrite (st : DocStore) (disk : Disk) (dumpOk renameOk : Bool) :
    Disk × Option VErr :=
  if dumpOk then
    let tempContent := some (VaultFile.mk st.meta st.data)
    if renameOk then ({ target := tempContent, temp := none }, none)
    else ({ disk with temp := tempContent }, some .storageError)
  else ({ disk with temp := none }, some .storageError)

/-- Result of a `DocumentStorage` mutation: post state, post disk, and the
returned value or raised exception. -/
structure StRes (ρ : Type) where
  st : DocStore
  disk : Disk
  ret : Res ρ
  deriving DecidableEq, Repr

/-- `doc.get("_id") or str(uuid.uuid4())` [storage.py:106]: the `or` takes the
existing `_id` when truthy, else the freshly generated UUID string `fid`. -/
def storeInsertId (doc : RawRecord) (fid : String) : RVal :=
  match aGet doc "_id" with
  | some v => if v.truthy then v else .js (.str fid)
  | none => .js (.str fid)

/-- `DocumentStorage.insert` [storage.py:103-112]: resolves the id, raises
`DuplicateIDError` before any mutation if it is already a key of the map,
otherwise writes `_id` into the caller's dict, adds it to the map, and runs
the atomic rewrite (whose failure propagates after the in-memory mutation). -/
def DocStore.insert (st : DocStore) (disk : Disk) (doc : RawRecord) (fid : String)
    (dumpOk renameOk : Bool) : StRes RVal :=
  let docId := storeInsertId doc fid
  match aGet st.data docId with
  | some _ => ⟨st, disk, .err .duplicateID⟩
  | none =>
    let doc' := aSet doc "_id" docId
    let st' : DocStore := { st with data := aSet st.data docId doc' }
    let (disk', e?) := st'.atomicWrite disk dumpOk renameOk
    match e? with
    | some e => ⟨st', disk', .err e⟩
    | none => ⟨st', disk', .ok docId⟩

/-- `DocumentStorage.get` [storage.py:114-115]: plain map lookup, `None` when
absent. -/
def DocStore.getRec (st : DocStore) (docId : RVal) : Option RawRecord :=
  aGet st.data docId

/-- `DocumentStorage.update` [storage.py:117-124]: merges the update dict into
the stored record (shallow overwrite) and rewrites; `False` when absent. -/
def DocStore.update (st : DocStore) (disk : Disk) (docId : RVal) (upds : RawRecord)
    (dumpOk renameOk : Bool) : StRes Bool :=
  match aGet st.data docId with
  | none => ⟨st, disk, .ok false⟩
  | some rec =>
    let st' : DocStore := { st with data := aSet st.data docId (aMerge rec upds) }
    let (disk', e?) := st'.atomicWrite disk dumpOk renameOk
    match e? with
    | some e => ⟨st', disk', .err e⟩
    | none => ⟨st', disk', .ok true⟩

/-- `DocumentStorage.delete` [storage.py:126-131]: removes the record if
present and rewrites; returns whether it existed. -/
def DocStore.delete (st : DocStore) (disk : Disk) (docId : RVal)
    (dumpOk renameOk : Bool) : StRes Bool :=
  match aGet st.data docId with
  | none => ⟨st, disk, .ok false⟩
  | some _ =>
    let st' : DocStore := { st with data := aDel st.data docId }
    let (disk', e?) := st'.atomicWrite disk dumpOk renameOk
    match e? with
    | some e => ⟨st', disk', .err e⟩
    | none => ⟨st', disk', .ok true⟩

/-- `DocumentStorage._load` on the reload path [storage.py:57-79,133-134]: a
missing or empty file reinitializes fresh metadata (at timestamp `now`) and an
empty map; a parseable `{_meta, documents}` file replaces both. -/
def DocStore.reload (st : DocStore) (disk : Disk) (now : String) : DocStore :=
  match disk.target with
  | none => { st with meta := initializeMeta none now, data := [] }
  | some vf => { st with meta := vf.vmeta, data := vf.documents }

/-- `DocumentStorage.list` [storage.py:133-135]: reloads from disk, then
returns the values of the documents map in order. -/
def DocStore.listAll (st : DocStore) (disk : Disk) (now : String) :
    DocStore × List RawRecord :=
  let st' := st.reload disk now
  (st', st'.data.map (fun kv => kv.2))

/-- In-memory `EncryptedStorage` state [encrypted_storage.py:22-29]: the
symmetric key and the wrapped document store. -/
structure EncState where
  key : Nat
  store : DocStore
  deriving DecidableEq, Repr

/-- Result of `EncryptedStorage.insert`: post state, post disk, the caller's
document after the in-place `doc["_id"] = _id` mutation, and the return. -/
structure EIns where
  es : EncState
  disk : Disk
  callerDoc : Doc
  ret : Res RVal
  deriving DecidableEq, Repr

/-- Result of an `EncryptedStorage` mutation returning a boolean. -/
structure EMut where
  es : EncState
  disk : Disk
  ret : Res Bool
  deriving DecidableEq, Repr

/-- `doc.get("_id") or str(uuid.uuid4())` [encrypted_storage.py:34]: the
existing `_id` value when truthy, else the fresh UUID string `fid`. -/
def encInsertId (doc : Doc) (fid : String) : JVal :=
  match aGet doc "_id" with
  | some v => if v.truthy then v else .str fid
  | none => .str fid

/-- The `except` clauses of `EncryptedStorage.insert` [encrypted_storage.py:
39-42]: `DuplicateIDError` is re-raised unwrapped; any other exception is
wrapped into `CryptoError`. -/
def wrapDupErr (r : Res RVal) : Res RVal :=
  match r with
  | .ok v => .ok v
  | .err .duplicateID => .err .duplicateID
  | .err _ => .err .cryptoError

/-- `EncryptedStorage.insert` [encrypted_storage.py:31-42]: resolves the id,
writes it into the caller's document in place, encrypts the full (mutated)
document, and inserts `{_id, data: ciphertext}` through the store.
`DuplicateIDError` is re-raised unwrapped; any other exception (for example a
`StorageError` from the atomic rewrite) is wrapped into `CryptoError`. -/
def EncState.insertDoc (es : EncState) (disk : Disk) (doc : Doc) (fid : String)
    (dumpOk renameOk : Bool) : EIns :=
  let idv := encInsertId doc fid
  let doc' := aSet doc "_id" idv
  let encrypted := encrypt_document doc' es.key
  let r := es.store.insert disk [("_id", .js idv), ("data", encrypted)] fid dumpOk renameOk
  ⟨{ es with store := r.st }, r.disk, doc', wrapDupErr r.ret⟩

/-- `EncryptedStorage.get` [encrypted_storage.py:44-53]: `if not raw` treats
both an absent record and a stored empty dict as not found (`None`); a
nonempty record missing the `data` field, or whose token fails decryption,
raises `CryptoError`; otherwise the full decrypted document is returned. -/
def EncState.getDoc (es : EncState) (docId : RVal) : Res (Option Doc) :=
  match es.store.getRec docId with
  | none => .ok none
  | some raw =>
    if raw = [] then .ok none
    else
      match aGet raw "data" with
      | none => .err .cryptoError
      | some v =>
        match decrypt_document v es.key with
        | some d => .ok (some d)
        | none => .err .cryptoError

/-- The `except` clause of `EncryptedStorage.update` [encrypted_storage.py:
65-66]: any exception after `get` is wrapped into `CryptoError`. -/
def wrapCryptoErr (r : Res Bool) : Res Bool :=
  match r with
  | .ok b => .ok b
  | .err _ => .err .cryptoError

/-- `EncryptedStorage.update` [encrypted_storage.py:55-66]: decrypts the
current document via `get` (propagating its `CryptoError`), returns `False`
when `get` gave a falsy result, merges the update dict into the plaintext,
re-encrypts, and stores the new token via `DocumentStorage.update`; failures
after `get` are wrapped into `CryptoError`. -/
def EncState.updateDoc (es : EncState) (disk : Disk) (docId : RVal) (upds : Doc)
    (dumpOk renameOk : Bool) : EMut :=
  match es.getDoc docId with
  | .err e => ⟨es, disk, .err e⟩
  | .ok none => ⟨es, disk, .ok false⟩
  | .ok (some existing) =>
    if existing = [] then ⟨es, disk, .ok false⟩
    else
      let merged := aMerge existing upds
      let encrypted := encrypt_document merged es.key
      let r := es.store.update disk docId [("data", encrypted)] dumpOk renameOk
      ⟨{ es with store := r.st }, r.disk, wrapCryptoErr r.ret⟩

/-- `EncryptedStorage.delete` [encrypted_storage.py:68-69]: delegates to
`DocumentStorage.delete` on the opaque record. -/
def EncState.deleteDoc (es : EncState) (disk : Disk) (docId : RVal)
    (dumpOk renameOk : Bool) : EMut :=
  let r := es.store.delete disk docId dumpOk renameOk
  ⟨{ es with store := r.st }, r.disk, r.ret⟩

/-- The decryption loop of `EncryptedStorage.list` [encrypted_storage.py:80-95]:
a record without a `data` field, or whose token fails decryption, aborts with
`CryptoError` in strict mode and is silently skipped otherwise. -/
def decryptRecords (recs : List RawRecord) (key : Nat) (strict : Bool) :
    Res (List Doc) :=
  match recs with
  | [] => .ok []
  | raw :: rest =>
    match aGet raw "data" with
    | none =>
      if strict then .err .cryptoError else decryptRecords rest key strict
    | some v =>
      match decrypt_document v key with
      | some d =>
        match decryptRecords rest key strict with
        | .ok ds => .ok (d :: ds)
        | .err e => .err e
      | none =>
        if strict then .err .cryptoError else decryptRecords rest key strict

/-- `EncryptedStorage.list` [encrypted_storage.py:71-95]: reloads the store
from disk (`DocumentStorage.list`), then decrypts every raw record. -/
def EncState.listDocs (es : EncState) (disk : Disk) (now : String) (strict : Bool) :
    EncState × Res (List Doc) :=
  let (st', recs) := es.store.listAll disk now
  ({ es with store := st' }, decryptRecords recs es.key strict)

/-- Python `==` on JSON scalar values as used by `find` (`doc.get(k) == v`):
structural equality plus Python's numeric conflation of booleans with
integers.  `None` compares equal only to `None`. -/
def pyEq : JVal → JVal → Bool
  | .null, .null => true
  | .bool b, .bool c => b == c
  | .bool b, .num n => (if b then (1 : Int) else 0) == n
  | .num n, .bool b => n == (if b then (1 : Int) else 0)
  | .num n, .num m => n == m
  | .str s, .str t => s == t
  | _, _ => false

/-- The filter test of `find` [encrypted_storage.py:119]:
`all(doc.get(k) == v for k, v in filter.items())`, where `doc.get(k)` yields
`None` when `k` is absent. -/
def matchesFilter (d : Doc) (flt : Doc) : Bool :=
  flt.all (fun kv => pyEq ((aGet d kv.1).getD .null) kv.2)

/-- A call argument that may fail Python's `isinstance(x, dict)` check. -/
inductive PyArg (α : Type) where
  | val (a : α)
  | notADict
  deriving DecidableEq, Repr

/-- `EncryptedStorage.find` [encrypted_storage.py:97-122]: a non-dict filter
raises `InvalidDocumentError` before any read; otherwise the documents of
`list(strict=True)` are filtered by `matchesFilter`. -/
def EncState.findDocs (es : EncState) (disk : Disk) (now : String)
    (flt : PyArg Doc) : Res (List Doc) :=
  match flt with
  | .notADict => .err .invalidDocument
  | .val f =>
    match (es.listDocs disk now true).2 with
    | .err e => .err e
    | .ok docs => .ok (docs.filter (fun d => matchesFilter d f))

/-- `EncryptedStorage.open` [encrypted_storage.py:124-153].  After the
passphrase and extension checks, both branches of the `try` block fail in this
snapshot of the source: on an existing file, `probe.salt` raises
`AttributeError` because `DocumentStorage` (storage.py:25-135) defines no
`salt` attribute; on a missing file, `DocumentStorage(path, app_name=None,
salt=salt)` raises `TypeError` because `DocumentStorage.__init__`
(storage.py:51) accepts no `salt` keyword.  Either exception is caught by the
blanket `except Exception` and wrapped into `CryptoError`, so `open` never
returns a store. -/
def encOpen (path : String) (passphrase : String) (disk : Disk) : Res EncState :=
  if passphrase = "" then .err .valueError
  else if ¬ List.isSuffixOf ".vault".data path.data then .err .valueError
  else
    match disk.target with
    | some _ => .err .cryptoError
    | none => .err .cryptoError

section AssocLemmas

variable {κ α : Type} [DecidableEq κ]

@[simp]
theorem aGet_nil (k : κ) : aGet ([] : List (κ × α)) k = none := rfl

theorem aGet_cons (k' : κ) (v : α) (l : List (κ × α)) (k : κ) :
    aGet ((k', v) :: l) k = if k' = k then some v else aGet l k := rfl

@[simp]
theorem aGet_aSet_self (l : List (κ × α)) (k : κ) (v : α) :
    aGet (aSet l k v) k = some v := by
  induction l with
  | nil => simp [aGet, aSet]
  | cons hd tl ih =>
    obtain ⟨k', v'⟩ := hd
    by_cases h : k' = k <;> simp [aGet, aSet, h, ih]

theorem aGet_aSet_ne (l : List (κ × α)) (k k' : κ) (v : α) (h : k' ≠ k) :
    aGet (aSet l k v) k' = aGet l k' := by
  have hk : k ≠ k' := Ne.symm h
  induction l with
  | nil => simp [aGet, aSet, hk]
  | cons hd tl ih =>
    obtain ⟨k₀, v₀⟩ := hd
    by_cases h₀ : k₀ = k
    · subst h₀
      simp [aGet, aSet, hk]
    · simp [aGet, aSet, h₀, ih]

theorem aGet_aDel_ne (l : List (κ × α)) (k k' : κ) (h : k' ≠ k) :
    aGet (aDel l k) k' = aGet l k' := by
  induction l with
  | nil => simp [aDel]
  | cons hd tl ih =>
    obtain ⟨k₀, v₀⟩ := hd
    by_cases h₀ : k₀ = k
    · subst h₀
      simp [aGet, aDel, Ne.symm h]
    · simp [aGet, aDel, h₀, ih]

theorem aGet_eq_none_of_not_memKeys (l : List (κ × α)) (k : κ)
    (h : k ∉ l.map Prod.fst) : aGet l k = none := by
  induction l with
  | nil => rfl
  | cons hd tl ih =>
    obtain ⟨k₀, v₀⟩ := hd
    simp only [List.map_cons, List.mem_cons] at h
    push_neg at h
    simp [aGet, Ne.symm h.1, ih h.2]

theorem aGet_aDel_self (l : List (κ × α)) (k : κ)
    (hnd : (l.map Prod.fst).Nodup) : aGet (aDel l k) k = none := by
  induction l with
  | nil => rfl
  | cons hd tl ih =>
    obtain ⟨k₀, v₀⟩ := hd
    simp only [List.map_cons, List.nodup_cons] at hnd
    by_cases h₀ : k₀ = k
    · subst h₀
      have hdel : aDel ((k₀, v₀) :: tl) k₀ = tl := by simp [aDel]
      rw [hdel]
      exact aGet_eq_none_of_not_memKeys tl k₀ hnd.1
    · simp [aGet, aDel, h₀, ih hnd.2]

theorem aSet_keys (l : List (κ × α)) (k : κ) (v : α) :
    (aSet l k v).map Prod.fst =
      if k ∈ l.map Prod.fst then l.map Prod.fst else l.map Prod.fst ++ [k] := by
  induction l with
  | nil => simp [aSet]
  | cons hd tl ih =>
    obtain ⟨k₀, v₀⟩ := hd
    by_cases h₀ : k₀ = k
    · subst h₀
      simp [aSet]
    · have h₀' : ¬ k = k₀ := fun h => h₀ h.symm
      by_cases hm : k ∈ tl.map Prod.fst <;>
        simp [aSet, h₀, ih, hm, h₀']

theorem aSet_keys_nodup (l : List (κ × α)) (k : κ) (v : α)
    (hnd : (l.map Prod.fst).Nodup) : ((aSet l k v).map Prod.fst).Nodup := by
  rw [aSet_keys]
  by_cases hm : k ∈ l.map Prod.fst
  · rw [if_pos hm]
    exact hnd
  · rw [if_neg hm]
    refine List.Nodup.append hnd (List.nodup_singleton k) ?_
    intro a ha hb
    rw [List.mem_singleton] at hb
    exact hm (hb ▸ ha)

theorem aDel_keys_sublist (l : List (κ × α)) (k : κ) :
    ((aDel l k).map Prod.fst).Sublist (l.map Prod.fst) := by
  induction l with
  | nil => simp [aDel]
  | cons hd tl ih =>
    obtain ⟨k₀, v₀⟩ := hd
    by_cases h₀ : k₀ = k
    · have hdel : aDel ((k₀, v₀) :: tl) k = tl := by simp [aDel, h₀]
      rw [hdel, List.map_cons]
      exact (List.Sublist.refl _).cons k₀
    · have hdel : aDel ((k₀, v₀) :: tl) k = (k₀, v₀) :: aDel tl k := by
        simp [aDel, h₀]
      rw [hdel, List.map_cons, List.map_cons]
      exact List.Sublist.cons₂ k₀ ih

theorem aDel_keys_nodup (l : List (κ × α)) (k : κ)
    (hnd : (l.map Prod.fst).Nodup) : ((aDel l k).map Prod.fst).Nodup :=
  hnd.sublist (aDel_keys_sublist l k)

theorem aGet_aMerge (l u : List (κ × α)) (k : κ) :
    aGet (aMerge l u) k = oor (aGetLast u k) (aGet l k) := by
  induction u generalizing l with
  | nil => simp [aMerge, aGetLast, oor]
  | cons hd tl ih =>
    obtain ⟨k₀, v₀⟩ := hd
    have step : aMerge l ((k₀, v₀) :: tl) = aMerge (aSet l k₀ v₀) tl := rfl
    rw [step, ih]
    cases hlast : aGetLast tl k with
    | some w => simp [aGetLast, hlast, oor]
    | none =>
      by_cases h₀ : k₀ = k
      · subst h₀
        simp [aGetLast, hlast, oor, aGet_aSet_self]
      · simp [aGetLast, hlast, oor, h₀, aGet_aSet_ne l k₀ k v₀ (fun h => h₀ h.symm)]

end AssocLemmas

/-- One user-level mutating call of the Encrypted Storage API, with the UUID
that `uuid.uuid4()` would generate supplied explicitly for `insert`. -/
inductive VOp where
  | ins (doc : Doc) (fid : String)
  | upd (docId : RVal) (upds : Doc)
  | del (docId : RVal)
  deriving DecidableEq, Repr

/-- The state after one API call under normal operation (the atomic rewrite
succeeds; the disk is irrelevant to the in-memory record map). -/
def VOp.apply (es : EncState) (op : VOp) : EncState :=
  match op with
  | .ins doc fid => (es.insertDoc ⟨none, none⟩ doc fid true true).es
  | .upd docId upds => (es.updateDoc ⟨none, none⟩ docId upds true true).es
  | .del docId => (es.deleteDoc ⟨none, none⟩ docId true true).es

/-- The state reached from `es` by a sequence of API calls. -/
def runOps (es : EncState) (ops : List VOp) : EncState :=
  ops.foldl VOp.apply es

/-- The ciphertext/identifier invariant for one stored record: the map key is
the plaintext JSON id `v`, the record's `_id` field holds the same `v`, and
its `data` field is a ciphertext under the vault's key whose plaintext
document carries `_id = v`. -/
def goodRec (key : Nat) (k : RVal) (rec : RawRecord) : Prop :=
  ∃ v d, k = RVal.js v ∧ aGet rec "_id" = some (RVal.js v) ∧
    aGet rec "data" = some (RVal.ct d key) ∧ aGet d "_id" = some v

/-- The invariant over a whole vault state: unique map keys and `goodRec` for
every stored record. -/
def goodState (es : EncState) : Prop :=
  (es.store.data.map Prod.fst).Nodup ∧
  ∀ k rec, aGet es.store.data k = some rec → goodRec es.key k rec

/-- An update is id-safe when every `_id` binding it carries names the record
it targets; `insert` and `delete` are always safe. -/
def opSafe (op : VOp) : Bool :=
  match op with
  | .upd docId upds => upds.all (fun kv => !(kv.1 == "_id") || (docId == RVal.js kv.2))
  | _ => true

theorem encInsertId_cases (doc : Doc) (fid : String) :
    encInsertId doc fid = .str fid ∨ (encInsertId doc fid).truthy = true := by
  unfold encInsertId
  cases hd : aGet doc "_id" with
  | none => exact Or.inl rfl
  | some v =>
    by_cases hv : v.truthy
    · right
      simp [hv]
    · left
      simp [hv]

theorem storeInsertId_encId (doc : Doc) (fid : String) (e : RVal) :
    storeInsertId [("_id", RVal.js (encInsertId doc fid)), ("data", e)] fid
      = RVal.js (encInsertId doc fid) := by
  have hget : aGet [("_id", RVal.js (encInsertId doc fid)), ("data", e)] "_id"
      = some (RVal.js (encInsertId doc fid)) := by simp [aGet]
  rcases encInsertId_cases doc fid with hc | hc
  · rw [hc] at hget ⊢
    unfold storeInsertId
    rw [hget]
    exact ite_self _
  · unfold storeInsertId
    rw [hget]
    have ht : (RVal.js (encInsertId doc fid)).truthy = true := by
      simpa [RVal.truthy] using hc
    simp [ht]

theorem aGetLast_mem {κ α : Type} [DecidableEq κ] (u : List (κ × α)) (k : κ)
    (w : α) (h : aGetLast u k = some w) : (k, w) ∈ u := by
  induction u with
  | nil => simp [aGetLast] at h
  | cons hd tl ih =>
    obtain ⟨k₀, v₀⟩ := hd
    simp only [aGetLast] at h
    cases htl : aGetLast tl k with
    | some x =>
      rw [htl] at h
      cases h
      exact List.mem_cons_of_mem _ (ih htl)
    | none =>
      rw [htl] at h
      by_cases h₀ : k₀ = k
      · rw [if_pos h₀] at h
        cases h
        subst h₀
        exact List.mem_cons_self _ _
      · rw [if_neg h₀] at h
        cases h

theorem DocStore.insert_dup (st : DocStore) (disk : Disk) (doc : RawRecord)
    (fid : String) (dOk rOk : Bool) (rec : RawRecord)
    (h : aGet st.data (storeInsertId doc fid) = some rec) :
    st.insert disk doc fid dOk rOk = ⟨st, disk, .err .duplicateID⟩ := by
  simp only [DocStore.insert, h]

theorem DocStore.insert_new (st : DocStore) (disk : Disk) (doc : RawRecord)
    (fid : String) (h : aGet st.data (storeInsertId doc fid) = none) :
    st.insert disk doc fid true true =
      ⟨⟨st.meta, aSet st.data (storeInsertId doc fid) (aSet doc "_id" (storeInsertId doc fid))⟩,
       ⟨some ⟨st.meta, aSet st.data (storeInsertId doc fid) (aSet doc "_id" (storeInsertId doc fid))⟩, none⟩,
       .ok (storeInsertId doc fid)⟩ := by
  simp only [DocStore.insert, DocStore.atomicWrite, h, if_true]

theorem DocStore.update_found (st : DocStore) (disk : Disk) (docId : RVal)
    (upds : RawRecord) (rec : RawRecord) (h : aGet st.data docId = some rec) :
    st.update disk docId upds true true =
      ⟨⟨st.meta, aSet st.data docId (aMerge rec upds)⟩,
       ⟨some ⟨st.meta, aSet st.data docId (aMerge rec upds)⟩, none⟩, .ok true⟩ := by
  simp only [DocStore.update, DocStore.atomicWrite, h, if_true]

theorem DocStore.delete_found (st : DocStore) (disk : Disk) (docId : RVal)
    (rec : RawRecord) (h : aGet st.data docId = some rec) :
    st.delete disk docId true true =
      ⟨⟨st.meta, aDel st.data docId⟩,
       ⟨some ⟨st.meta, aDel st.data docId⟩, none⟩, .ok true⟩ := by
  simp only [DocStore.delete, DocStore.atomicWrite, h, if_true]

theorem DocStore.delete_missing (st : DocStore) (disk : Disk) (docId : RVal)
    (dOk rOk : Bool) (h : aGet st.data docId = none) :
    st.delete disk docId dOk rOk = ⟨st, disk, .ok false⟩ := by
  simp only [DocStore.delete, h]

theorem insertDoc_es (es : EncState) (disk : Disk) (doc : Doc) (fid : String)
    (dOk rOk : Bool) :
    (es.insertDoc disk doc fid dOk rOk).es =
      { es with store := (es.store.insert disk
          [("_id", RVal.js (encInsertId doc fid)),
           ("data", encrypt_document (aSet doc "_id" (encInsertId doc fid)) es.key)]
          fid dOk rOk).st } :=
  rfl

theorem getDoc_good (es : EncState) (k : RVal) (rec : RawRecord)
    (hk : aGet es.store.data k = some rec) (hg : goodRec es.key k rec) :
    ∃ v d, k = RVal.js v ∧ aGet d "_id" = some v ∧ es.getDoc k = .ok (some d) ∧
      aGet rec "_id" = some (RVal.js v) ∧ aGet rec "data" = some (RVal.ct d es.key) := by
  obtain ⟨v, d, hkv, hid, hdata, hdid⟩ := hg
  refine ⟨v, d, hkv, hdid, ?_, hid, hdata⟩
  have hne : ¬ rec = [] := by
    intro he
    rw [he] at hid
    simp [aGet] at hid
  unfold EncState.getDoc DocStore.getRec
  rw [hk]
  simp [if_neg hne, hdata, decrypt_document]

theorem goodState_ins (es : EncState) (disk : Disk) (doc : Doc) (fid : String)
    (h : goodState es) : goodState (es.insertDoc disk doc fid true true).es := by
  obtain ⟨hnd, hrec⟩ := h
  rw [insertDoc_es]
  have hsid : storeInsertId
      [("_id", RVal.js (encInsertId doc fid)),
       ("data", encrypt_document (aSet doc "_id" (encInsertId doc fid)) es.key)] fid
      = RVal.js (encInsertId doc fid) := storeInsertId_encId doc fid _
  cases hdup : aGet es.store.data (RVal.js (encInsertId doc fid)) with
  | some r =>
    rw [DocStore.insert_dup es.store disk _ fid true true r (by rw [hsid]; exact hdup)]
    exact ⟨hnd, hrec⟩
  | none =>
    rw [DocStore.insert_new es.store disk _ fid (by rw [hsid]; exact hdup)]
    rw [hsid]
    constructor
    · exact aSet_keys_nodup _ _ _ hnd
    · intro k rec hk
      by_cases hkid : k = RVal.js (encInsertId doc fid)
      · subst hkid
        rw [aGet_aSet_self] at hk
        cases hk
        refine ⟨encInsertId doc fid, aSet doc "_id" (encInsertId doc fid), rfl, ?_, ?_, ?_⟩
        · have : aGet [("_id", RVal.js (encInsertId doc fid)),
              ("data", encrypt_document (aSet doc "_id" (encInsertId doc fid)) es.key)]
              "_id" = some (RVal.js (encInsertId doc fid)) := by simp [aGet]
          rw [show ("_id" : String) = "_id" from rfl]
          simp [aSet, aGet]
        · simp [aSet, aGet, encrypt_document]
        · exact aGet_aSet_self _ _ _
      · rw [aGet_aSet_ne _ _ _ _ hkid] at hk
        exact hrec k rec hk

theorem opSafe_upd_id (docId : RVal) (upds : Doc) (w : JVal)
    (hsafe : opSafe (.upd docId upds) = true) (hmem : ("_id", w) ∈ upds) :
    docId = RVal.js w := by
  have hsafe' : upds.all (fun kv => !(kv.1 == "_id") || (docId == RVal.js kv.2)) = true := hsafe
  have hall := List.all_eq_true.mp hsafe' _ hmem
  simp only [beq_self_eq_true, Bool.not_true, Bool.false_or, beq_iff_eq] at hall
  exact hall

theorem goodState_upd (es : EncState) (disk : Disk) (docId : RVal) (upds : Doc)
    (h : goodState es) (hsafe : opSafe (.upd docId upds) = true) :
    goodState (es.updateDoc disk docId upds true true).es := by
  obtain ⟨hnd, hrec⟩ := h
  cases hk : aGet es.store.data docId with
  | none =>
    have hget : es.getDoc docId = .ok none := by
      unfold EncState.getDoc DocStore.getRec
      rw [hk]
    simp only [EncState.updateDoc, hget]
    exact ⟨hnd, hrec⟩
  | some rec =>
    obtain ⟨v, d, hkv, hdid, hget, hid, hdata⟩ := getDoc_good es docId rec hk (hrec _ _ hk)
    have hdne : ¬ d = [] := by
      intro he
      rw [he] at hdid
      simp [aGet] at hdid
    simp only [EncState.updateDoc, hget, if_neg hdne]
    rw [DocStore.update_found es.store disk docId _ rec hk]
    refine ⟨aSet_keys_nodup _ _ _ hnd, ?_⟩
    intro k r hkr
    by_cases hkid : k = docId
    · subst hkid
      rw [aGet_aSet_self] at hkr
      cases hkr
      refine ⟨v, aMerge d upds, hkv, ?_, ?_, ?_⟩
      · rw [aGet_aMerge]
        have hlast : aGetLast
            [("data", encrypt_document (aMerge d upds) es.key)] "_id" = none := by
          simp [aGetLast]
        rw [hlast, hid]
        rfl
      · rw [aGet_aMerge]
        simp [aGetLast, oor, encrypt_document]
      · rw [aGet_aMerge]
        cases hlast : aGetLast upds "_id" with
        | none =>
          rw [hdid]
          rfl
        | some w =>
          have hmem := aGetLast_mem upds "_id" w hlast
          have hall := opSafe_upd_id _ upds w hsafe hmem
          rw [hkv] at hall
          have hvw : v = w := by
            simpa using hall
          subst hvw
          rfl
    · rw [aGet_aSet_ne _ _ _ _ hkid] at hkr
      exact hrec k r hkr

theorem goodState_del (es : EncState) (disk : Disk) (docId : RVal)
    (h : goodState es) : goodState (es.deleteDoc disk docId true true).es := by
  obtain ⟨hnd, hrec⟩ := h
  cases hk : aGet es.store.data docId with
  | none =>
    unfold EncState.deleteDoc
    rw [DocStore.delete_missing es.store disk docId true true hk]
    exact ⟨hnd, hrec⟩
  | some rec =>
    unfold EncState.deleteDoc
    rw [DocStore.delete_found es.store disk docId rec hk]
    refine ⟨aDel_keys_nodup _ _ hnd, ?_⟩
    intro k r hkr
    by_cases hkid : k = docId
    · subst hkid
      rw [aGet_aDel_self _ _ hnd] at hkr
      cases hkr
    · rw [aGet_aDel_ne _ _ _ hkid] at hkr
      exact hrec k r hkr

theorem goodState_runOps (es : EncState) (ops : List VOp)
    (h : goodState es) (hsafe : ∀ op ∈ ops, opSafe op = true) :
    goodState (runOps es ops) := by
  induction ops generalizing es with
  | nil => exact h
  | cons op rest ih =>
    have h1 : goodState (VOp.apply es op) := by
      cases op with
      | ins doc fid => exact goodState_ins es ⟨none, none⟩ doc fid h
      | upd docId upds =>
        exact goodState_upd es ⟨none, none⟩ docId upds h
          (hsafe _ (List.mem_cons_self _ _))
      | del docId => exact goodState_del es ⟨none, none⟩ docId h
    exact ih (VOp.apply es op) h1 (fun o ho => hsafe o (List.mem_cons_of_mem _ ho))

/-- A stored record that the decryption loop rejects: the `data` field is
missing, or its token fails decryption under `key`. -/
def isBadRec (r : RawRecord) (key : Nat) : Bool :=
  match aGet r "data" with
  | none => true
  | some v => (decrypt_document v key).isNone

theorem decryptRecords_nonstrict (recs : List RawRecord) (key : Nat) :
    decryptRecords recs key false =
      .ok (recs.filterMap (fun r => (aGet r "data").bind (fun v => decrypt_document v key))) := by
  induction recs with
  | nil => rfl
  | cons r rest ih =>
    cases hd : aGet r "data" with
    | none => simp [decryptRecords, hd, List.filterMap_cons, ih]
    | some v =>
      cases hdec : decrypt_document v key with
      | none => simp [decryptRecords, hd, hdec, List.filterMap_cons, ih]
      | some d => simp [decryptRecords, hd, hdec, List.filterMap_cons, ih]

theorem decryptRecords_strict_bad (recs : List RawRecord) (key : Nat)
    (h : ∃ r ∈ recs, isBadRec r key = true) :
    decryptRecords recs key true = .err .cryptoError := by
  induction recs with
  | nil => simp at h
  | cons r rest ih =>
    rcases h with ⟨r', hr', hbad⟩
    rcases List.mem_cons.mp hr' with heq | hmem
    · subst heq
      cases hd : aGet r' "data" with
      | none => simp [decryptRecords, hd]
      | some v =>
        have hbad' : (decrypt_document v key).isNone = true := by
          unfold isBadRec at hbad
          rw [hd] at hbad
          exact hbad
        cases hdec : decrypt_document v key with
        | some d =>
          rw [hdec] at hbad'
          simp at hbad'
        | none => simp [decryptRecords, hd, hdec]
    · have hrest := ih ⟨r', hmem, hbad⟩
      cases hd : aGet r "data" with
      | none => simp [decryptRecords, hd]
      | some v =>
        cases hdec : decrypt_document v key with
        | none => simp [decryptRecords, hd, hdec]
        | some d => simp [decryptRecords, hd, hdec, hrest]

theorem pyEq_null_iff (v : JVal) : pyEq .null v = true ↔ v = .null := by
  cases v <;> simp [pyEq]

theorem matchesFilter_char (d flt : Doc) :
    matchesFilter d flt = true ↔
      ∀ kv ∈ flt, (∃ w, aGet d kv.1 = some w ∧ pyEq w kv.2 = true) ∨
        (aGet d kv.1 = none ∧ kv.2 = JVal.null) := by
  unfold matchesFilter
  rw [List.all_eq_true]
  constructor
  · intro h kv hm
    have hx := h kv hm
    cases hg : aGet d kv.1 with
    | some w =>
      left
      refine ⟨w, rfl, ?_⟩
      simpa [hg] using hx
    | none =>
      right
      refine ⟨rfl, ?_⟩
      have hnull : pyEq .null kv.2 = true := by simpa [hg] using hx
      exact (pyEq_null_iff kv.2).mp hnull
  · intro h kv hm
    rcases h kv hm with ⟨w, hw, hpe⟩ | ⟨hn, hnull⟩
    · simpa [hw] using hpe
    · simp [hn, hnull, pyEq]

theorem filter_matchesFilter_nil (docs : List Doc) :
    docs.filter (fun d => matchesFilter d []) = docs := by
  induction docs with
  | nil => rfl
  | cons d rest ih => simp [List.filter_cons, matchesFilter, ih]

/-- Python falsiness of `doc.get("_id")` at the plaintext level. -/
def pyFalsyJ (o : Option JVal) : Bool :=
  match o with
  | none => true
  | some v => !v.truthy

/-- Python falsiness of `doc.get("_id")` at the raw record level. -/
def pyFalsyR (o : Option RVal) : Bool :=
  match o with
  | none => true
  | some v => !v.truthy

theorem encInsertId_falsy (doc : Doc) (fid : String)
    (h : pyFalsyJ (aGet doc "_id") = true) : encInsertId doc fid = .str fid := by
  unfold encInsertId
  unfold pyFalsyJ at h
  cases hd : aGet doc "_id" with
  | none => rfl
  | some v =>
    rw [hd] at h
    simp only [Bool.not_eq_true'] at h
    simp [h]

theorem storeInsertId_falsy (doc : RawRecord) (fid : String)
    (h : pyFalsyR (aGet doc "_id") = true) :
    storeInsertId doc fid = RVal.js (JVal.str fid) := by
  unfold storeInsertId
  unfold pyFalsyR at h
  cases hd : aGet doc "_id" with
  | none => rfl
  | some v =>
    rw [hd] at h
    simp only [Bool.not_eq_true'] at h
    simp [h]

/-- C1: contrary to the claim, `EncryptedStorage.open` never returns a usable
store in this snapshot of the source.  With a valid passphrase and a `.vault`
path it raises `CryptoError` on a nonexistent path (where the claim says it
generates a salt, persists it via Document Store initialization, derives the
key and returns a store), and also on an existing file whose metadata already
carries a salt (where the claim allows a fatal cryptographic error only when
the salt is absent): `DocumentStorage.__init__` (storage.py:51) has no `salt`
parameter and `DocumentStorage` no `salt` attribute, so both branches of the
`try` block in `open` (encrypted_storage.py:139-150) raise and are wrapped
into `CryptoError`. -/
theorem vaultedb_c1_open_always_fails :
    encOpen "fresh.vault" "p1" ⟨none, none⟩ = .err .cryptoError ∧
    encOpen "salted.vault" "p1"
      ⟨some ⟨[("vault_version", JVal.str "1.0.0"), ("created_at", JVal.str "t"),
              ("salt", JVal.str "c2FsdA==")], []⟩, none⟩ = .err .cryptoError := by
  constructor <;> decide

/-- C2 counterexample: from the empty vault, `insert({"_id": "a", "msg": "m"})`
followed by `update("a", {"_id": "b"})` reaches a state whose record stored
under plaintext id "a" decrypts (under the vault's key 7) to a document whose
`_id` field is "b", refuting the claimed invariant for updates whose partial
mapping rebinds `_id`. -/
theorem vaultedb_c2_counterexample :
    aGet (runOps ⟨7, ⟨[], []⟩⟩
        [VOp.ins [("_id", JVal.str "a"), ("msg", JVal.str "m")] "u1",
         VOp.upd (RVal.js (JVal.str "a")) [("_id", JVal.str "b")]]).store.data
      (RVal.js (JVal.str "a")) =
      some [("_id", RVal.js (JVal.str "a")),
            ("data", RVal.ct [("_id", JVal.str "b"), ("msg", JVal.str "m")] 7)] ∧
    decrypt_document (RVal.ct [("_id", JVal.str "b"), ("msg", JVal.str "m")] 7) 7 =
      some [("_id", JVal.str "b"), ("msg", JVal.str "m")] ∧
    aGet [("_id", JVal.str "b"), ("msg", JVal.str "m")] "_id" = some (JVal.str "b") ∧
    (JVal.str "b" : JVal) ≠ JVal.str "a" := by
  refine ⟨by decide, by decide, by decide, by decide⟩

/-- C2 (amended): starting from an empty vault, after every sequence of
insert, update, and delete operations in which each update's partial mapping
binds `_id` (if at all) only to the id of the record it targets, every stored
record's ciphertext decrypts under the vault's key to a document whose `_id`
field equals the record's plaintext `_id`. -/
theorem vaultedb_c2_ciphertext_id_invariant (key : Nat) (m : Meta) (ops : List VOp)
    (hsafe : ∀ op ∈ ops, opSafe op = true) :
    ∀ k rec, aGet (runOps ⟨key, ⟨m, []⟩⟩ ops).store.data k = some rec →
      ∃ tok d v, aGet rec "data" = some tok ∧
        decrypt_document tok (runOps ⟨key, ⟨m, []⟩⟩ ops).key = some d ∧
        aGet rec "_id" = some (RVal.js v) ∧ aGet d "_id" = some v := by
  have h0 : goodState ⟨key, ⟨m, []⟩⟩ := by
    refine ⟨by simp, ?_⟩
    intro k rec hk
    simp [aGet] at hk
  have hg := goodState_runOps _ ops h0 hsafe
  intro k rec hk
  obtain ⟨v, d, hkv, hid, hdata, hdid⟩ := hg.2 k rec hk
  refine ⟨RVal.ct d (runOps ⟨key, ⟨m, []⟩⟩ ops).key, d, v, hdata, ?_, hid, hdid⟩
  simp [decrypt_document]

/-- Witness for the amended C2 at a concrete run: an insert followed by an
id-safe update; the single stored record satisfies the invariant. -/
theorem vaultedb_c2_witness :
    (∀ op ∈ [VOp.ins [("name", JVal.str "Alice")] "u1",
             VOp.upd (RVal.js (JVal.str "u1")) [("role", JVal.str "admin")]],
      opSafe op = true) ∧
    (∃ tok d v,
      aGet [("_id", RVal.js (JVal.str "u1")),
            ("data", RVal.ct [("name", JVal.str "Alice"), ("_id", JVal.str "u1"),
                              ("role", JVal.str "admin")] 7)] "data" = some tok ∧
      decrypt_document tok (runOps ⟨7, ⟨[], []⟩⟩
          [VOp.ins [("name", JVal.str "Alice")] "u1",
           VOp.upd (RVal.js (JVal.str "u1")) [("role", JVal.str "admin")]]).key = some d ∧
      aGet [("_id", RVal.js (JVal.str "u1")),
            ("data", RVal.ct [("name", JVal.str "Alice"), ("_id", JVal.str "u1"),
                              ("role", JVal.str "admin")] 7)] "_id" = some (RVal.js v) ∧
      aGet d "_id" = some v) :=
  ⟨by decide,
   vaultedb_c2_ciphertext_id_invariant 7 []
     [VOp.ins [("name", JVal.str "Alice")] "u1",
      VOp.upd (RVal.js (JVal.str "u1")) [("role", JVal.str "admin")]]
     (by decide) (RVal.js (JVal.str "u1"))
     [("_id", RVal.js (JVal.str "u1")),
      ("data", RVal.ct [("name", JVal.str "Alice"), ("_id", JVal.str "u1"),
                        ("role", JVal.str "admin")] 7)]
     (by decide)⟩

theorem atomicWrite_fail (st : DocStore) (disk : Disk) (dumpOk renameOk : Bool)
    (h : ¬(dumpOk = true ∧ renameOk = true)) :
    (st.atomicWrite disk dumpOk renameOk).1.target = disk.target ∧
    (st.atomicWrite disk dumpOk renameOk).2 = some .storageError := by
  cases dumpOk with
  | false => exact ⟨rfl, rfl⟩
  | true =>
    cases renameOk with
    | false => exact ⟨rfl, rfl⟩
    | true => exact absurd ⟨rfl, rfl⟩ h

theorem insert_fail_target (st : DocStore) (disk : Disk) (doc : RawRecord)
    (fid : String) (dumpOk renameOk : Bool)
    (hfail : ¬(dumpOk = true ∧ renameOk = true))
    (hnew : aGet st.data (storeInsertId doc fid) = none) :
    (st.insert disk doc fid dumpOk renameOk).disk.target = disk.target ∧
    (st.insert disk doc fid dumpOk renameOk).ret = .err .storageError := by
  cases dumpOk with
  | false =>
    constructor <;> simp [DocStore.insert, DocStore.atomicWrite, hnew]
  | true =>
    cases renameOk with
    | true => exact absurd ⟨rfl, rfl⟩ hfail
    | false =>
      constructor <;> simp [DocStore.insert, DocStore.atomicWrite, hnew]

theorem update_fail_target (st : DocStore) (disk : Disk) (docId : RVal)
    (upds : RawRecord) (dumpOk renameOk : Bool) (rec : RawRecord)
    (hfail : ¬(dumpOk = true ∧ renameOk = true))
    (hfound : aGet st.data docId = some rec) :
    (st.update disk docId upds dumpOk renameOk).disk.target = disk.target ∧
    (st.update disk docId upds dumpOk renameOk).ret = .err .storageError := by
  cases dumpOk with
  | false =>
    constructor <;> simp [DocStore.update, DocStore.atomicWrite, hfound]
  | true =>
    cases renameOk with
    | true => exact absurd ⟨rfl, rfl⟩ hfail
    | false =>
      constructor <;> simp [DocStore.update, DocStore.atomicWrite, hfound]

theorem delete_fail_target (st : DocStore) (disk : Disk) (docId : RVal)
    (dumpOk renameOk : Bool) (rec : RawRecord)
    (hfail : ¬(dumpOk = true ∧ renameOk = true))
    (hfound : aGet st.data docId = some rec) :
    (st.delete disk docId dumpOk renameOk).disk.target = disk.target ∧
    (st.delete disk docId dumpOk renameOk).ret = .err .storageError := by
  cases dumpOk with
  | false =>
    constructor <;> simp [DocStore.delete, DocStore.atomicWrite, hfound]
  | true =>
    cases renameOk with
    | true => exact absurd ⟨rfl, rfl⟩ hfail
    | false =>
      constructor <;> simp [DocStore.delete, DocStore.atomicWrite, hfound]

/-- C3: the atomic rewrite serializes the full `{_meta, documents}` structure
to a fresh temporary file and renames it over the target; when both steps
succeed the target holds exactly that structure, and when serialization or
rename fails (injected via `dumpOk`/`renameOk`, as the tests patch
`os.replace`) the target's content is unchanged and every Document Store
mutation (insert of a fresh id, update and delete of a present id) surfaces a
`StorageError` with the target still unchanged. -/
theorem vaultedb_c3_atomic_rewrite (st : DocStore) (disk : Disk)
    (dumpOk renameOk : Bool) (doc : RawRecord) (fid : String) (docId : RVal)
    (upds : RawRecord) (rec : RawRecord)
    (hfail : ¬(dumpOk = true ∧ renameOk = true))
    (hnew : aGet st.data (storeInsertId doc fid) = none)
    (hfound : aGet st.data docId = some rec) :
    st.atomicWrite disk true true = (⟨some ⟨st.meta, st.data⟩, none⟩, none) ∧
    ((st.atomicWrite disk dumpOk renameOk).1.target = disk.target ∧
     (st.atomicWrite disk dumpOk renameOk).2 = some .storageError) ∧
    ((st.insert disk doc fid dumpOk renameOk).disk.target = disk.target ∧
     (st.insert disk doc fid dumpOk renameOk).ret = .err .storageError) ∧
    ((st.update disk docId upds dumpOk renameOk).disk.target = disk.target ∧
     (st.update disk docId upds dumpOk renameOk).ret = .err .storageError) ∧
    ((st.delete disk docId dumpOk renameOk).disk.target = disk.target ∧
     (st.delete disk docId dumpOk renameOk).ret = .err .storageError) :=
  ⟨rfl, atomicWrite_fail st disk dumpOk renameOk hfail,
   insert_fail_target st disk doc fid dumpOk renameOk hfail hnew,
   update_fail_target st disk docId upds dumpOk renameOk rec hfail hfound,
   delete_fail_target st disk docId dumpOk renameOk rec hfail hfound⟩

/-- Witness for C3: a one-record store with an injected rename failure. -/
theorem vaultedb_c3_witness :
    (¬(true = true ∧ false = true)) ∧
    aGet ([(RVal.js (JVal.str "a"), [("_id", RVal.js (JVal.str "a"))])] :
        List (RVal × RawRecord))
      (storeInsertId [("_id", RVal.js (JVal.str "b"))] "u1") = none ∧
    aGet ([(RVal.js (JVal.str "a"), [("_id", RVal.js (JVal.str "a"))])] :
        List (RVal × RawRecord))
      (RVal.js (JVal.str "a")) = some [("_id", RVal.js (JVal.str "a"))] ∧
    ((DocStore.mk [] [(RVal.js (JVal.str "a"), [("_id", RVal.js (JVal.str "a"))])]).insert
        ⟨some ⟨[], []⟩, none⟩ [("_id", RVal.js (JVal.str "b"))] "u1" true false).disk.target =
      (⟨some ⟨[], []⟩, none⟩ : Disk).target ∧
    ((DocStore.mk [] [(RVal.js (JVal.str "a"), [("_id", RVal.js (JVal.str "a"))])]).insert
        ⟨some ⟨[], []⟩, none⟩ [("_id", RVal.js (JVal.str "b"))] "u1" true false).ret =
      .err .storageError :=
  ⟨by decide, by decide, by decide,
   (vaultedb_c3_atomic_rewrite
      (DocStore.mk [] [(RVal.js (JVal.str "a"), [("_id", RVal.js (JVal.str "a"))])])
      ⟨some ⟨[], []⟩, none⟩ true false [("_id", RVal.js (JVal.str "b"))] "u1"
      (RVal.js (JVal.str "a")) [("x", RVal.js (JVal.num 1))]
      [("_id", RVal.js (JVal.str "a"))]
      (by decide) (by decide) (by decide)).2.2.1⟩

/-- C4: when the resolved `_id` is already a key of the document map,
`DocumentStorage.insert` raises `DuplicateIDError` (before any mutation, so
the in-memory map and the on-disk file are returned unchanged), and
`EncryptedStorage.insert` propagates exactly that `DuplicateIDError`, not a
wrapped `CryptoError`, again with store state and disk unchanged. -/
theorem vaultedb_c4_duplicate_insert (st : DocStore) (disk : Disk)
    (doc : RawRecord) (fid : String) (dOk rOk : Bool) (rec : RawRecord)
    (hdup : aGet st.data (storeInsertId doc fid) = some rec)
    (es : EncState) (edisk : Disk) (edoc : Doc) (efid : String) (erec : RawRecord)
    (hedup : aGet es.store.data (RVal.js (encInsertId edoc efid)) = some erec) :
    st.insert disk doc fid dOk rOk = ⟨st, disk, .err .duplicateID⟩ ∧
    (es.insertDoc edisk edoc efid dOk rOk).es = es ∧
    (es.insertDoc edisk edoc efid dOk rOk).disk = edisk ∧
    (es.insertDoc edisk edoc efid dOk rOk).ret = .err .duplicateID := by
  have h2 := DocStore.insert_dup es.store edisk
      [("_id", RVal.js (encInsertId edoc efid)),
       ("data", encrypt_document (aSet edoc "_id" (encInsertId edoc efid)) es.key)]
      efid dOk rOk erec (by rw [storeInsertId_encId]; exact hedup)
  have hins : es.insertDoc edisk edoc efid dOk rOk =
      ⟨es, edisk, aSet edoc "_id" (encInsertId edoc efid), .err .duplicateID⟩ := by
    simp only [EncState.insertDoc, h2, wrapDupErr]
  refine ⟨DocStore.insert_dup st disk doc fid dOk rOk rec hdup, ?_, ?_, ?_⟩ <;>
    rw [hins]

/-- Witness for C4: inserting `{"_id": "a"}` into a vault whose store already
holds a record keyed "a", at both layers. -/
theorem vaultedb_c4_witness :
    aGet ([(RVal.js (JVal.str "a"), [("_id", RVal.js (JVal.str "a"))])] :
        List (RVal × RawRecord))
      (storeInsertId [("_id", RVal.js (JVal.str "a"))] "u1") =
      some [("_id", RVal.js (JVal.str "a"))] ∧
    aGet ([(RVal.js (JVal.str "a"), [("_id", RVal.js (JVal.str "a"))])] :
        List (RVal × RawRecord))
      (RVal.js (encInsertId [("name", JVal.str "Bo"), ("_id", JVal.str "a")] "u2")) =
      some [("_id", RVal.js (JVal.str "a"))] ∧
    (DocStore.mk [] [(RVal.js (JVal.str "a"), [("_id", RVal.js (JVal.str "a"))])]).insert
        ⟨none, none⟩ [("_id", RVal.js (JVal.str "a"))] "u1" true true =
      ⟨DocStore.mk [] [(RVal.js (JVal.str "a"), [("_id", RVal.js (JVal.str "a"))])],
       ⟨none, none⟩, .err .duplicateID⟩ ∧
    ((EncState.mk 7 (DocStore.mk []
        [(RVal.js (JVal.str "a"), [("_id", RVal.js (JVal.str "a"))])])).insertDoc
      ⟨none, none⟩ [("name", JVal.str "Bo"), ("_id", JVal.str "a")] "u2" true true).ret =
      .err .duplicateID := by
  refine ⟨by decide, by decide, ?_, ?_⟩
  · exact (vaultedb_c4_duplicate_insert
      (DocStore.mk [] [(RVal.js (JVal.str "a"), [("_id", RVal.js (JVal.str "a"))])])
      ⟨none, none⟩ [("_id", RVal.js (JVal.str "a"))] "u1" true true
      [("_id", RVal.js (JVal.str "a"))] (by decide)
      (EncState.mk 7 (DocStore.mk []
        [(RVal.js (JVal.str "a"), [("_id", RVal.js (JVal.str "a"))])]))
      ⟨none, none⟩ [("name", JVal.str "Bo"), ("_id", JVal.str "a")] "u2"
      [("_id", RVal.js (JVal.str "a"))] (by decide)).1
  · exact (vaultedb_c4_duplicate_insert
      (DocStore.mk [] [(RVal.js (JVal.str "a"), [("_id", RVal.js (JVal.str "a"))])])
      ⟨none, none⟩ [("_id", RVal.js (JVal.str "a"))] "u1" true true
      [("_id", RVal.js (JVal.str "a"))] (by decide)
      (EncState.mk 7 (DocStore.mk []
        [(RVal.js (JVal.str "a"), [("_id", RVal.js (JVal.str "a"))])]))
      ⟨none, none⟩ [("name", JVal.str "Bo"), ("_id", JVal.str "a")] "u2"
      [("_id", RVal.js (JVal.str "a"))] (by decide)).2.2.2

/-- C5: over a stored state (the vault file contents, reloaded by `list`)
containing at least one record that is missing the `data` field or whose
token fails decryption, `list(strict=True)` raises `CryptoError`, while
`list(strict=False)` returns exactly the successfully decrypted documents,
skipping every offending record. -/
theorem vaultedb_c5_strict_vs_lossy (es : EncState) (disk : Disk) (now : String)
    (vf : VaultFile) (htgt : disk.target = some vf)
    (hbad : ∃ r ∈ vf.documents.map Prod.snd, isBadRec r es.key = true) :
    (es.listDocs disk now true).2 = .err .cryptoError ∧
    (es.listDocs disk now false).2 =
      .ok ((vf.documents.map Prod.snd).filterMap
        (fun r => (aGet r "data").bind (fun v => decrypt_document v es.key))) := by
  unfold EncState.listDocs DocStore.listAll DocStore.reload
  rw [htgt]
  exact ⟨decryptRecords_strict_bad _ _ hbad, decryptRecords_nonstrict _ _⟩

/-- Witness for C5: one valid and one corrupted stored record; strict mode
raises, non-strict mode returns exactly the valid document. -/
theorem vaultedb_c5_witness :
    ((⟨some ⟨[], [(RVal.js (JVal.str "good"),
          [("_id", RVal.js (JVal.str "good")),
           ("data", RVal.ct [("_id", JVal.str "good")] 7)]),
        (RVal.js (JVal.str "bad"),
          [("_id", RVal.js (JVal.str "bad")), ("data", RVal.junk 0)])]⟩,
      none⟩ : Disk).target = some ⟨[], [(RVal.js (JVal.str "good"),
          [("_id", RVal.js (JVal.str "good")),
           ("data", RVal.ct [("_id", JVal.str "good")] 7)]),
        (RVal.js (JVal.str "bad"),
          [("_id", RVal.js (JVal.str "bad")), ("data", RVal.junk 0)])]⟩) ∧
    (∃ r ∈ (([(RVal.js (JVal.str "good"),
          [("_id", RVal.js (JVal.str "good")),
           ("data", RVal.ct [("_id", JVal.str "good")] 7)]),
        (RVal.js (JVal.str "bad"),
          [("_id", RVal.js (JVal.str "bad")), ("data", RVal.junk 0)])] :
        List (RVal × RawRecord)).map Prod.snd), isBadRec r 7 = true) ∧
    ((EncState.mk 7 (DocStore.mk [] [])).listDocs
      ⟨some ⟨[], [(RVal.js (JVal.str "good"),
          [("_id", RVal.js (JVal.str "good")),
           ("data", RVal.ct [("_id", JVal.str "good")] 7)]),
        (RVal.js (JVal.str "bad"),
          [("_id", RVal.js (JVal.str "bad")), ("data", RVal.junk 0)])]⟩, none⟩
      "t" true).2 = .err .cryptoError ∧
    ((EncState.mk 7 (DocStore.mk [] [])).listDocs
      ⟨some ⟨[], [(RVal.js (JVal.str "good"),
          [("_id", RVal.js (JVal.str "good")),
           ("data", RVal.ct [("_id", JVal.str "good")] 7)]),
        (RVal.js (JVal.str "bad"),
          [("_id", RVal.js (JVal.str "bad")), ("data", RVal.junk 0)])]⟩, none⟩
      "t" false).2 = .ok [[("_id", JVal.str "good")]] := by
  refine ⟨rfl, by decide, ?_, by decide⟩
  exact (vaultedb_c5_strict_vs_lossy (EncState.mk 7 (DocStore.mk [] []))
    ⟨some ⟨[], [(RVal.js (JVal.str "good"),
        [("_id", RVal.js (JVal.str "good")),
         ("data", RVal.ct [("_id", JVal.str "good")] 7)]),
      (RVal.js (JVal.str "bad"),
        [("_id", RVal.js (JVal.str "bad")), ("data", RVal.junk 0)])]⟩, none⟩
    "t" _ rfl (by decide)).1

/-- C6 counterexample: a document lacking the filter key "x" is returned by
`find({"x": None})`, because `doc.get("x")` yields `None`, which compares
equal to the filter's `None` value — refuting the claim that a document
lacking a filter key never matches regardless of the filter's value. -/
theorem vaultedb_c6_counterexample :
    aGet ([("_id", JVal.str "a")] : Doc) "x" = none ∧
    (EncState.mk 7 (DocStore.mk [] [])).findDocs
      ⟨some ⟨[], [(RVal.js (JVal.str "a"),
        [("_id", RVal.js (JVal.str "a")),
         ("data", RVal.ct [("_id", JVal.str "a")] 7)])]⟩, none⟩
      "t" (.val [("x", JVal.null)]) = .ok [[("_id", JVal.str "a")]] := by
  exact ⟨by decide, by decide⟩

/-- C6 (amended): a non-mapping filter raises a validation error for every
state (hence before any read); a mapping filter keeps exactly the documents
of `list(strict=True)` in which every filter key is either present with a
Python-equal value, or absent with the filter's value being `None` (so a
document lacking a filter key matches exactly when the filter maps that key
to `None`); the empty filter returns all documents. -/
theorem vaultedb_c6_find_filter (es : EncState) (disk : Disk) (now : String)
    (flt : Doc) (docs : List Doc)
    (hlist : (es.listDocs disk now true).2 = .ok docs) :
    es.findDocs disk now .notADict = .err .invalidDocument ∧
    es.findDocs disk now (.val flt) = .ok (docs.filter (fun d => matchesFilter d flt)) ∧
    (∀ d, matchesFilter d flt = true ↔
      ∀ kv ∈ flt, (∃ w, aGet d kv.1 = some w ∧ pyEq w kv.2 = true) ∨
        (aGet d kv.1 = none ∧ kv.2 = JVal.null)) ∧
    es.findDocs disk now (.val []) = .ok docs := by
  refine ⟨rfl, ?_, fun d => matchesFilter_char d flt, ?_⟩
  · unfold EncState.findDocs
    rw [hlist]
  · simp only [EncState.findDocs, hlist]
    exact congrArg Res.ok (filter_matchesFilter_nil docs)

/-- Witness for the amended C6: a one-document vault, filtered on a present
key with an equal value. -/
theorem vaultedb_c6_witness :
    ((EncState.mk 7 (DocStore.mk [] [])).listDocs
      ⟨some ⟨[], [(RVal.js (JVal.str "a"),
        [("_id", RVal.js (JVal.str "a")),
         ("data", RVal.ct [("_id", JVal.str "a"), ("age", JVal.num 30)] 7)])]⟩, none⟩
      "t" true).2 = .ok [[("_id", JVal.str "a"), ("age", JVal.num 30)]] ∧
    (EncState.mk 7 (DocStore.mk [] [])).findDocs
      ⟨some ⟨[], [(RVal.js (JVal.str "a"),
        [("_id", RVal.js (JVal.str "a")),
         ("data", RVal.ct [("_id", JVal.str "a"), ("age", JVal.num 30)] 7)])]⟩, none⟩
      "t" (.val [("age", JVal.num 30)]) =
      .ok ([[("_id", JVal.str "a"), ("age", JVal.num 30)]].filter
        (fun d => matchesFilter d [("age", JVal.num 30)])) ∧
    (EncState.mk 7 (DocStore.mk [] [])).findDocs
      ⟨some ⟨[], [(RVal.js (JVal.str "a"),
        [("_id", RVal.js (JVal.str "a")),
         ("data", RVal.ct [("_id", JVal.str "a"), ("age", JVal.num 30)] 7)])]⟩, none⟩
      "t" (.val []) = .ok [[("_id", JVal.str "a"), ("age", JVal.num 30)]] ∧
    ([[("_id", JVal.str "a"), ("age", JVal.num 30)]].filter
        (fun d => matchesFilter d [("age", JVal.num 30)])) =
      [[("_id", JVal.str "a"), ("age", JVal.num 30)]] := by
  have h := vaultedb_c6_find_filter (EncState.mk 7 (DocStore.mk [] []))
    ⟨some ⟨[], [(RVal.js (JVal.str "a"),
      [("_id", RVal.js (JVal.str "a")),
       ("data", RVal.ct [("_id", JVal.str "a"), ("age", JVal.num 30)] 7)])]⟩, none⟩
    "t" [("age", JVal.num 30)] [[("_id", JVal.str "a"), ("age", JVal.num 30)]]
    (by decide)
  exact ⟨by decide, h.2.1, h.2.2.2, by decide⟩

/-- C7: writing a reserved key (`vault_version` or `created_at`) through the
metadata mapping — by item assignment or anywhere in a bulk update — raises
the protection error (a `RuntimeError` in the source) and returns the dict
unchanged, with no key of a rejected bulk update applied; assignment and bulk
update touching only non-reserved keys succeed. -/
theorem vaultedb_c7_protected_meta (m : Meta) (k : String) (v : JVal) (u : Meta)
    (knr : String) (vnr : JVal) (unr : Meta)
    (hres : k = "vault_version" ∨ k = "created_at")
    (hures : ∃ kv ∈ u, kv.1 = "vault_version" ∨ kv.1 = "created_at")
    (hnr : knr ≠ "vault_version" ∧ knr ≠ "created_at")
    (hunr : ∀ kv ∈ unr, kv.1 ≠ "vault_version" ∧ kv.1 ≠ "created_at") :
    metaSet m k v = (m, some .protectionError) ∧
    metaUpdate m u = (m, some .protectionError) ∧
    metaSet m knr vnr = (aSet m knr vnr, none) ∧
    metaUpdate m unr = (aMerge m unr, none) := by
  have hguard : protectedGuard k = true := by
    rcases hres with rfl | rfl <;> rfl
  have hguardnr : protectedGuard knr = false := by
    unfold protectedGuard
    rw [Bool.or_eq_false_iff]
    constructor <;> rw [beq_eq_false_iff_ne]
    · exact hnr.2
    · exact hnr.1
  refine ⟨?_, ?_, ?_, ?_⟩
  · simp [metaSet, hguard]
  · have hany : u.any (fun kv => protectedGuard kv.1) = true := by
      rcases hures with ⟨kv, hmem, hkv⟩
      refine List.any_eq_true.mpr ⟨kv, hmem, ?_⟩
      rcases hkv with h | h <;> rw [h] <;> rfl
    simp [metaUpdate, hany]
  · simp [metaSet, hguardnr]
  · have hany : unr.any (fun kv => protectedGuard kv.1) = false := by
      rw [List.any_eq_false]
      intro kv hmem
      have hkv := hunr kv hmem
      unfold protectedGuard
      rw [Bool.not_eq_true, Bool.or_eq_false_iff]
      constructor <;> rw [beq_eq_false_iff_ne]
      · exact hkv.2
      · exact hkv.1
    simp [metaUpdate, hany]

/-- Witness for C7 at a concrete metadata dict. -/
theorem vaultedb_c7_witness :
    metaSet [("vault_version", JVal.str "1.0.0"), ("created_at", JVal.str "t")]
      "vault_version" (JVal.str "2.0.0") =
      ([("vault_version", JVal.str "1.0.0"), ("created_at", JVal.str "t")],
       some .protectionError) ∧
    metaUpdate [("vault_version", JVal.str "1.0.0"), ("created_at", JVal.str "t")]
      [("label", JVal.str "x"), ("created_at", JVal.str "2099")] =
      ([("vault_version", JVal.str "1.0.0"), ("created_at", JVal.str "t")],
       some .protectionError) ∧
    metaSet [("vault_version", JVal.str "1.0.0"), ("created_at", JVal.str "t")]
      "label" (JVal.str "alpha") =
      (aSet [("vault_version", JVal.str "1.0.0"), ("created_at", JVal.str "t")]
        "label" (JVal.str "alpha"), none) ∧
    metaUpdate [("vault_version", JVal.str "1.0.0"), ("created_at", JVal.str "t")]
      [("env", JVal.str "staging")] =
      (aMerge [("vault_version", JVal.str "1.0.0"), ("created_at", JVal.str "t")]
        [("env", JVal.str "staging")], none) :=
  vaultedb_c7_protected_meta
    [("vault_version", JVal.str "1.0.0"), ("created_at", JVal.str "t")]
    "vault_version" (JVal.str "2.0.0")
    [("label", JVal.str "x"), ("created_at", JVal.str "2099")]
    "label" (JVal.str "alpha") [("env", JVal.str "staging")]
    (Or.inl rfl) (by decide) (by decide) (by decide)

/-- C8 counterexample: a state whose documents map stores the empty record
under id "x".  A record is stored under the id and lacks the ciphertext
field, yet `get` returns the not-found sentinel instead of raising a
cryptographic error, because `if not raw` in the source treats the empty
(falsy) dict like an absent record. -/
theorem vaultedb_c8_counterexample :
    (EncState.mk 7 (DocStore.mk [] [(RVal.js (JVal.str "x"), [])])).store.getRec
      (RVal.js (JVal.str "x")) = some [] ∧
    aGet ([] : RawRecord) "data" = none ∧
    (EncState.mk 7 (DocStore.mk [] [(RVal.js (JVal.str "x"), [])])).getDoc
      (RVal.js (JVal.str "x")) = .ok none := by
  exact ⟨by decide, by decide, by decide⟩

/-- C8 (amended): `get` returns the not-found sentinel when no record is
stored under the id, and also when the stored record is the empty (falsy)
dict; for a nonempty stored record it raises a cryptographic error when the
record lacks the `data` field or when its token fails decryption, and
otherwise returns the fully decrypted document — never partial data. -/
theorem vaultedb_c8_get_fail_closed (es : EncState)
    (idA idB idC idD idE : RVal) (recB recC recD : RawRecord)
    (tokC tokD : RVal) (dD : Doc)
    (hA : es.store.getRec idA = none)
    (hB : es.store.getRec idB = some recB) (hBne : recB ≠ [])
    (hBdata : aGet recB "data" = none)
    (hC : es.store.getRec idC = some recC) (hCne : recC ≠ [])
    (hCdata : aGet recC "data" = some tokC)
    (hCdec : decrypt_document tokC es.key = none)
    (hD : es.store.getRec idD = some recD) (hDne : recD ≠ [])
    (hDdata : aGet recD "data" = some tokD)
    (hDdec : decrypt_document tokD es.key = some dD)
    (hE : es.store.getRec idE = some []) :
    es.getDoc idA = .ok none ∧
    es.getDoc idB = .err .cryptoError ∧
    es.getDoc idC = .err .cryptoError ∧
    es.getDoc idD = .ok (some dD) ∧
    es.getDoc idE = .ok none := by
  refine ⟨?_, ?_, ?_, ?_, ?_⟩
  · simp only [EncState.getDoc, hA]
  · simp only [EncState.getDoc, hB, if_neg hBne, hBdata]
  · simp only [EncState.getDoc, hC, if_neg hCne, hCdata, hCdec]
  · simp only [EncState.getDoc, hD, if_neg hDne, hDdata, hDdec]
  · simp [EncState.getDoc, hE]

/-- Witness for the amended C8 on a concrete five-record store. -/
theorem vaultedb_c8_witness :
    (EncState.mk 7 (DocStore.mk []
      [(RVal.js (JVal.str "b"), [("_id", RVal.js (JVal.str "b"))]),
       (RVal.js (JVal.str "c"),
         [("_id", RVal.js (JVal.str "c")), ("data", RVal.junk 0)]),
       (RVal.js (JVal.str "d"),
         [("_id", RVal.js (JVal.str "d")),
          ("data", RVal.ct [("_id", JVal.str "d")] 7)]),
       (RVal.js (JVal.str "e"), [])])).getDoc (RVal.js (JVal.str "absent")) =
      .ok none ∧
    (EncState.mk 7 (DocStore.mk []
      [(RVal.js (JVal.str "b"), [("_id", RVal.js (JVal.str "b"))]),
       (RVal.js (JVal.str "c"),
         [("_id", RVal.js (JVal.str "c")), ("data", RVal.junk 0)]),
       (RVal.js (JVal.str "d"),
         [("_id", RVal.js (JVal.str "d")),
          ("data", RVal.ct [("_id", JVal.str "d")] 7)]),
       (RVal.js (JVal.str "e"), [])])).getDoc (RVal.js (JVal.str "b")) =
      .err .cryptoError ∧
    (EncState.mk 7 (DocStore.mk []
      [(RVal.js (JVal.str "b"), [("_id", RVal.js (JVal.str "b"))]),
       (RVal.js (JVal.str "c"),
         [("_id", RVal.js (JVal.str "c")), ("data", RVal.junk 0)]),
       (RVal.js (JVal.str "d"),
         [("_id", RVal.js (JVal.str "d")),
          ("data", RVal.ct [("_id", JVal.str "d")] 7)]),
       (RVal.js (JVal.str "e"), [])])).getDoc (RVal.js (JVal.str "c")) =
      .err .cryptoError ∧
    (EncState.mk 7 (DocStore.mk []
      [(RVal.js (JVal.str "b"), [("_id", RVal.js (JVal.str "b"))]),
       (RVal.js (JVal.str "c"),
         [("_id", RVal.js (JVal.str "c")), ("data", RVal.junk 0)]),
       (RVal.js (JVal.str "d"),
         [("_id", RVal.js (JVal.str "d")),
          ("data", RVal.ct [("_id", JVal.str "d")] 7)]),
       (RVal.js (JVal.str "e"), [])])).getDoc (RVal.js (JVal.str "d")) =
      .ok (some [("_id", JVal.str "d")]) ∧
    (EncState.mk 7 (DocStore.mk []
      [(RVal.js (JVal.str "b"), [("_id", RVal.js (JVal.str "b"))]),
       (RVal.js (JVal.str "c"),
         [("_id", RVal.js (JVal.str "c")), ("data", RVal.junk 0)]),
       (RVal.js (JVal.str "d"),
         [("_id", RVal.js (JVal.str "d")),
          ("data", RVal.ct [("_id", JVal.str "d")] 7)]),
       (RVal.js (JVal.str "e"), [])])).getDoc (RVal.js (JVal.str "e")) =
      .ok none :=
  vaultedb_c8_get_fail_closed
    (EncState.mk 7 (DocStore.mk []
      [(RVal.js (JVal.str "b"), [("_id", RVal.js (JVal.str "b"))]),
       (RVal.js (JVal.str "c"),
         [("_id", RVal.js (JVal.str "c")), ("data", RVal.junk 0)]),
       (RVal.js (JVal.str "d"),
         [("_id", RVal.js (JVal.str "d")),
          ("data", RVal.ct [("_id", JVal.str "d")] 7)]),
       (RVal.js (JVal.str "e"), [])]))
    (RVal.js (JVal.str "absent")) (RVal.js (JVal.str "b")) (RVal.js (JVal.str "c"))
    (RVal.js (JVal.str "d")) (RVal.js (JVal.str "e"))
    [("_id", RVal.js (JVal.str "b"))]
    [("_id", RVal.js (JVal.str "c")), ("data", RVal.junk 0)]
    [("_id", RVal.js (JVal.str "d")), ("data", RVal.ct [("_id", JVal.str "d")] 7)]
    (RVal.junk 0) (RVal.ct [("_id", JVal.str "d")] 7) [("_id", JVal.str "d")]
    (by decide) (by decide) (by decide) (by decide) (by decide) (by decide)
    (by decide) (by decide) (by decide) (by decide) (by decide) (by decide)
    (by decide)

/-- C9: deleting a reserved metadata key (`vault_version` or `created_at`)
through the metadata mapping is not rejected: `ProtectedMetaDict` guards only
item assignment and bulk update, so deletion succeeds and removes the key. -/
theorem vaultedb_c9_reserved_delete (m : Meta) (k : String) (v : JVal)
    (hres : k = "vault_version" ∨ k = "created_at")
    (hmem : aGet m k = some v) (hnd : (m.map Prod.fst).Nodup) :
    metaDel m k = (aDel m k, none) ∧ aGet (aDel m k) k = none := by
  constructor
  · unfold metaDel
    rw [hmem]
  · exact aGet_aDel_self m k hnd

/-- Witness for C9: deleting `vault_version` from a concrete metadata dict. -/
theorem vaultedb_c9_witness :
    metaDel [("vault_version", JVal.str "1.0.0"), ("created_at", JVal.str "t")]
      "vault_version" =
      (aDel [("vault_version", JVal.str "1.0.0"), ("created_at", JVal.str "t")]
        "vault_version", none) ∧
    aGet (aDel [("vault_version", JVal.str "1.0.0"), ("created_at", JVal.str "t")]
      "vault_version") "vault_version" = none :=
  vaultedb_c9_reserved_delete
    [("vault_version", JVal.str "1.0.0"), ("created_at", JVal.str "t")]
    "vault_version" (JVal.str "1.0.0") (Or.inl rfl) (by decide) (by decide)

/-- C10: when the inserted document's `_id` is absent or falsy (such as `""`
or `0`), insert discards it and uses the freshly generated UUID string as the
identifier, at both layers; the caller's document is mutated in place — its
`_id` field is set to the assigned identifier before encryption/storage, and
the stored payload is built from that mutated document. -/
theorem vaultedb_c10_falsy_id (es : EncState) (disk : Disk) (doc : Doc)
    (fid : String) (st : DocStore) (sdisk : Disk) (sdoc : RawRecord)
    (hfalsy : pyFalsyJ (aGet doc "_id") = true)
    (hnew : aGet es.store.data (RVal.js (JVal.str fid)) = none)
    (hsfalsy : pyFalsyR (aGet sdoc "_id") = true)
    (hsnew : aGet st.data (RVal.js (JVal.str fid)) = none) :
    (es.insertDoc disk doc fid true true).callerDoc = aSet doc "_id" (JVal.str fid) ∧
    (es.insertDoc disk doc fid true true).ret = .ok (RVal.js (JVal.str fid)) ∧
    aGet (es.insertDoc disk doc fid true true).es.store.data (RVal.js (JVal.str fid)) =
      some [("_id", RVal.js (JVal.str fid)),
            ("data", RVal.ct (aSet doc "_id" (JVal.str fid)) es.key)] ∧
    (st.insert sdisk sdoc fid true true).ret = .ok (RVal.js (JVal.str fid)) ∧
    aGet (st.insert sdisk sdoc fid true true).st.data (RVal.js (JVal.str fid)) =
      some (aSet sdoc "_id" (RVal.js (JVal.str fid))) := by
  have henc : encInsertId doc fid = .str fid := encInsertId_falsy doc fid hfalsy
  have hsid : storeInsertId sdoc fid = RVal.js (JVal.str fid) :=
    storeInsertId_falsy sdoc fid hsfalsy
  have h2 := DocStore.insert_new es.store disk
      [("_id", RVal.js (encInsertId doc fid)),
       ("data", encrypt_document (aSet doc "_id" (encInsertId doc fid)) es.key)] fid
      (by rw [storeInsertId_encId, henc]; exact hnew)
  rw [storeInsertId_encId doc fid] at h2
  rw [henc] at h2
  have hsetid : aSet
      [("_id", RVal.js (JVal.str fid)),
       ("data", encrypt_document (aSet doc "_id" (JVal.str fid)) es.key)]
      "_id" (RVal.js (JVal.str fid)) =
      [("_id", RVal.js (JVal.str fid)),
       ("data", encrypt_document (aSet doc "_id" (JVal.str fid)) es.key)] := by
    simp [aSet]
  rw [hsetid] at h2
  have hins : es.insertDoc disk doc fid true true =
      ⟨⟨es.key, ⟨es.store.meta, aSet es.store.data (RVal.js (JVal.str fid))
          [("_id", RVal.js (JVal.str fid)),
           ("data", encrypt_document (aSet doc "_id" (JVal.str fid)) es.key)]⟩⟩,
       ⟨some ⟨es.store.meta, aSet es.store.data (RVal.js (JVal.str fid))
          [("_id", RVal.js (JVal.str fid)),
           ("data", encrypt_document (aSet doc "_id" (JVal.str fid)) es.key)]⟩, none⟩,
       aSet doc "_id" (JVal.str fid), .ok (RVal.js (JVal.str fid))⟩ := by
    simp only [EncState.insertDoc, henc, h2, wrapDupErr]
  have h3 := DocStore.insert_new st sdisk sdoc fid (by rw [hsid]; exact hsnew)
  rw [hsid] at h3
  refine ⟨?_, ?_, ?_, ?_, ?_⟩
  · rw [hins]
  · rw [hins]
  · rw [hins]
    exact aGet_aSet_self _ _ _
  · rw [h3]
  · rw [h3]
    exact aGet_aSet_self _ _ _

/-- Witness for C10: inserting a document whose `_id` is the falsy empty
string; the generated UUID "u1" becomes the identifier at both layers. -/
theorem vaultedb_c10_witness :
    pyFalsyJ (aGet ([("_id", JVal.str ""), ("name", JVal.str "N")] : Doc) "_id") = true ∧
    ((EncState.mk 7 (DocStore.mk [] [])).insertDoc ⟨none, none⟩
      [("_id", JVal.str ""), ("name", JVal.str "N")] "u1" true true).callerDoc =
      aSet [("_id", JVal.str ""), ("name", JVal.str "N")] "_id" (JVal.str "u1") ∧
    ((EncState.mk 7 (DocStore.mk [] [])).insertDoc ⟨none, none⟩
      [("_id", JVal.str ""), ("name", JVal.str "N")] "u1" true true).ret =
      .ok (RVal.js (JVal.str "u1")) ∧
    ((DocStore.mk [] []).insert ⟨none, none⟩ [("x", RVal.js (JVal.num 0))] "u1"
      true true).ret = .ok (RVal.js (JVal.str "u1")) := by
  have h := vaultedb_c10_falsy_id (EncState.mk 7 (DocStore.mk [] [])) ⟨none, none⟩
    [("_id", JVal.str ""), ("name", JVal.str "N")] "u1"
    (DocStore.mk [] []) ⟨none, none⟩ [("x", RVal.js (JVal.num 0))]
    (by decide) (by decide) (by decide) (by decide)
  exact ⟨by decide, h.1, h.2.1, h.2.2.2.1⟩
